import Mathlib

/-!
Verification development for the reatom-dnd drag-and-drop session engine.

Shallow embedding of the core source modules:
* `src/src/utils/rect.ts` — rect/position primitives (`makeRect`, `update`,
  `updateWithOffset`, `updatePosition`);
* `src/src/utils/registry.ts` — node registry (`registerDrag/Drop`,
  `unregisterDrag/Drop`);
* `src/src/strategies.ts` — intersection strategies (`closestCenter`,
  `createClosestCorner`, `rectangleIntersection`);
* `src/src/utils/scroll.ts` — scroll batcher (`flush`, `clear`) and the
  scroll-parent inverted index;
* `src/src/modifiers.ts` — the session state machine: `applyScrollDeltas`,
  the sensor handlers for drag-end / cancel, and the per-frame collision
  effect (`mainEffect`).

JavaScript numbers are idealized as `ℚ` wherever the source computes with
field operations only, and as `ℝ` where `Math.sqrt` occurs (the distance
based strategies).  DOM nodes are abstracted as natural-number handles;
environment-dependent predicates (node attached, registry-valid) appear as
explicit boolean fields of the model states.  Event emission order is made
observable by letting each handler return a trace of emission and
state-reset events alongside the next state.
-/

namespace ReatomDnd

/-! ### Rect and position primitives (src/src/utils/rect.ts) -/

/-- A 2D point, as in `Position` from rect.ts. -/
structure Position where
  x : ℚ
  y : ℚ
deriving DecidableEq

/-- A raw measured box, as read from `getBoundingClientRect` /
`DOMRect`: the eight numeric fields consumed by `makeRect.update`. -/
structure RawRect where
  x : ℚ
  y : ℚ
  width : ℚ
  height : ℚ
  left : ℚ
  right : ℚ
  top : ℚ
  bottom : ℚ
deriving DecidableEq

/-- `RectWithId` from rect.ts: a rect tagged with its owner id. -/
structure RectWithId where
  id : String
  x : ℚ
  y : ℚ
  width : ℚ
  height : ℚ
  left : ℚ
  right : ℚ
  top : ℚ
  bottom : ℚ
deriving DecidableEq

/-- The initial stored value built by `makeRect(name, id, rect)`. -/
def makeRect (id : String) (rect : RawRect) : RectWithId :=
  { id := id
    x := rect.x
    y := rect.y
    width := rect.width
    height := rect.height
    left := rect.left
    right := rect.right
    top := rect.top
    bottom := rect.bottom }

/-- `update(rect)` from rect.ts: rebuild the stored value from the raw
rect, keeping the current id (the rebuilt value has the same field
mapping as `makeRect`); skip the write when shallow-equal. -/
def RectWithId.update (current : RectWithId) (rect : RawRect) : RectWithId :=
  if current = makeRect current.id rect then current else makeRect current.id rect

/-- `updateWithOffset(deltaX, deltaY)` from rect.ts: translate all
coordinate fields by the scroll delta. -/
def RectWithId.updateWithOffset (current : RectWithId) (deltaX deltaY : ℚ) : RectWithId :=
  { id := current.id
    x := current.x - deltaX
    y := current.y - deltaY
    width := current.width
    height := current.height
    left := current.left - deltaX
    right := current.right - deltaX
    top := current.top - deltaY
    bottom := current.bottom - deltaY }

/-- `updatePosition(position)` from rect.ts: recompute the box from a new
top-left corner, holding width and height fixed. -/
def RectWithId.updatePosition (current : RectWithId) (position : Position) : RectWithId :=
  { id := current.id
    width := current.width
    height := current.height
    x := position.x
    y := position.y
    left := position.x
    top := position.y
    right := position.x + current.width
    bottom := position.y + current.height }

/-- The rect invariant from the data model: `right = left + width` and
`bottom = top + height`. -/
def rectInvariant (r : RectWithId) : Prop :=
  r.right = r.left + r.width ∧ r.bottom = r.top + r.height

/-- The same invariant on a raw input rect. -/
def rawRectInvariant (r : RawRect) : Prop :=
  r.right = r.left + r.width ∧ r.bottom = r.top + r.height

/-- One call to a rect-state method, for reasoning about arbitrary call
sequences against a `makeRect` state. -/
inductive RectOp where
  | update (rect : RawRect)
  | updateWithOffset (deltaX deltaY : ℚ)
  | updatePosition (position : Position)
deriving DecidableEq

/-- Run one rect-state method on the stored value. -/
def applyRectOp (r : RectWithId) : RectOp → RectWithId
  | RectOp.update rect => r.update rect
  | RectOp.updateWithOffset deltaX deltaY => r.updateWithOffset deltaX deltaY
  | RectOp.updatePosition position => r.updatePosition position

/-- Run a sequence of rect-state methods, first to last. -/
def applyRectOps (r : RectWithId) (ops : List RectOp) : RectWithId :=
  ops.foldl applyRectOp r

/-! ### Node registry (src/src/utils/registry.ts) -/

/-- DOM elements are abstracted as numeric handles. -/
abbrev Node := ℕ

/-- The state owned by `makeNodeRegistry`: the two `WeakMap` namespaces
plus the mirrored `data-dnd-drag-id` / `data-dnd-drop-id` attributes. -/
structure RegistryState where
  dragMap : Node → Option String
  dropMap : Node → Option String
  dragAttr : Node → Option String
  dropAttr : Node → Option String

/-- `registerDrag(el, id)`: unconditional association plus attribute. -/
def registerDrag (el : Node) (id : String) (s : RegistryState) : RegistryState :=
  { s with
    dragMap := Function.update s.dragMap el (some id)
    dragAttr := Function.update s.dragAttr el (some id) }

/-- `registerDrop(el, id)`: unconditional association plus attribute. -/
def registerDrop (el : Node) (id : String) (s : RegistryState) : RegistryState :=
  { s with
    dropMap := Function.update s.dropMap el (some id)
    dropAttr := Function.update s.dropAttr el (some id) }

/-- `unregisterDrag(el, id)`: delete the association and attribute only
when the current association equals `id`. -/
def unregisterDrag (el : Node) (id : String) (s : RegistryState) : RegistryState :=
  if s.dragMap el = some id then
    { s with
      dragMap := Function.update s.dragMap el none
      dragAttr := Function.update s.dragAttr el none }
  else s

/-- `unregisterDrop(el, id)`: delete the association and attribute only
when the current association equals `id`. -/
def unregisterDrop (el : Node) (id : String) (s : RegistryState) : RegistryState :=
  if s.dropMap el = some id then
    { s with
      dropMap := Function.update s.dropMap el none
      dropAttr := Function.update s.dropAttr el none }
  else s

/-! ### Intersection strategies (src/src/strategies.ts)

The strategy input record mirrors the argument of an
`IntersectionStrategy`. -/

structure StrategyInput where
  pointer : Position
  draggingRect : RectWithId
  overlayRect : RectWithId
  droppingRects : List RectWithId

/-- `IntersectionCollision` with a rational score, used by
`rectangleIntersection` (field operations only). -/
structure Collision where
  value : ℚ
  droppingRect : RectWithId
deriving DecidableEq

/-- Horizontal overlap `max(0, min(rights) - max(lefts))`. -/
def overlapX (overlay drop : RectWithId) : ℚ :=
  max 0 (min overlay.right drop.right - max overlay.left drop.left)

/-- Vertical overlap `max(0, min(bottoms) - max(tops))`. -/
def overlapY (overlay drop : RectWithId) : ℚ :=
  max 0 (min overlay.bottom drop.bottom - max overlay.top drop.top)

/-- `intersectionArea` as computed inside `rectangleIntersection`. -/
def intersectionArea (overlay drop : RectWithId) : ℚ :=
  overlapX overlay drop * overlapY overlay drop

/-- `(overlayRight - overlayLeft) * (overlayBottom - overlayTop)`. -/
def overlayArea (overlay : RectWithId) : ℚ :=
  (overlay.right - overlay.left) * (overlay.bottom - overlay.top)

/-- `rectangleIntersection` from strategies.ts: bail out on a zero-area
overlay, keep candidates with positive overlap scored by
`intersectionArea / overlayArea`, and stable-sort descending by score
(JavaScript `Array.prototype.sort` is stable; the comparator is
`(a, b) => b.value - a.value`). -/
def rectangleIntersection (input : StrategyInput) : List Collision :=
  let oa := overlayArea input.overlayRect
  if oa = 0 then []
  else
    let collisions :=
      (input.droppingRects.filter
        (fun droppingRect => decide (0 < intersectionArea input.overlayRect droppingRect))).map
        (fun droppingRect =>
          { value := intersectionArea input.overlayRect droppingRect / oa
            droppingRect := droppingRect })
    collisions.mergeSort (fun a b => decide (b.value ≤ a.value))

/-- `IntersectionCollision` with a real score, used by the distance based
strategies (their scores go through `Math.sqrt`). -/
structure RCollision where
  value : ℝ
  droppingRect : RectWithId

/-- The Euclidean distance computed by `closestCenter`: from the pointer
to the candidate's center `(left + width/2, top + height/2)`. -/
noncomputable def centerDistance (pointer : Position) (droppingRect : RectWithId) : ℝ :=
  Real.sqrt
    (((droppingRect.left + droppingRect.width / 2 - pointer.x : ℚ) : ℝ) ^ 2 +
      ((droppingRect.top + droppingRect.height / 2 - pointer.y : ℚ) : ℝ) ^ 2)

/-- `closestCenter` from strategies.ts: score every candidate by
`centerDistance` in input order, then stable-sort ascending by score (the
comparator is `(a, b) => a.value - b.value`). -/
noncomputable def closestCenter (input : StrategyInput) : List RCollision :=
  ((input.droppingRects.map
      (fun droppingRect =>
        ({ value := centerDistance input.pointer droppingRect
           droppingRect := droppingRect } : RCollision)))).mergeSort
    (fun a b => decide (a.value ≤ b.value))

/-- `CornerAggregation` from strategies.ts. -/
inductive CornerAggregation where
  | sum
  | min
  | average
deriving DecidableEq

/-- Distance between one pair of same-indexed corners. -/
noncomputable def cornerDistance (ox oy dx dy : ℚ) : ℝ :=
  Real.sqrt (((ox - dx : ℚ) : ℝ) ^ 2 + ((oy - dy : ℚ) : ℝ) ^ 2)

/-- The score computed inside `createClosestCorner`: the four pairwise
corner distances (top-left, top-right, bottom-left, bottom-right in the
order the source lists them) reduced by the chosen aggregation:
`sum` folds with `+` from 0, `average` divides that sum by the count 4,
`min` is `Math.min` over the four distances. -/
noncomputable def cornerValue (aggregation : CornerAggregation)
    (overlayRect droppingRect : RectWithId) : ℝ :=
  let d1 := cornerDistance overlayRect.left overlayRect.top droppingRect.left droppingRect.top
  let d2 := cornerDistance overlayRect.right overlayRect.top droppingRect.right droppingRect.top
  let d3 := cornerDistance overlayRect.left overlayRect.bottom droppingRect.left droppingRect.bottom
  let d4 := cornerDistance overlayRect.right overlayRect.bottom droppingRect.right droppingRect.bottom
  match aggregation with
  | CornerAggregation.min => min d1 (min d2 (min d3 d4))
  | CornerAggregation.average => (0 + d1 + d2 + d3 + d4) / 4
  | CornerAggregation.sum => 0 + d1 + d2 + d3 + d4

/-- `createClosestCorner(aggregation)` from strategies.ts: score every
candidate by `cornerValue` in input order, then stable-sort ascending by
score. -/
noncomputable def createClosestCorner (aggregation : CornerAggregation)
    (input : StrategyInput) : List RCollision :=
  ((input.droppingRects.map
      (fun droppingRect =>
        ({ value := cornerValue aggregation input.overlayRect droppingRect
           droppingRect := droppingRect } : RCollision)))).mergeSort
    (fun a b => decide (a.value ≤ b.value))

/-! ### Session state machine (src/src/modifiers.ts, src/src/utils/scroll.ts)

The per-instance mutable cells and caches of `reatomDnd` are collected in
an explicit `EngineState`.  Listener and engine-callback invocations and
the `dragging.set` / `dropping.set` writes are recorded as a trace of
`Ev` events, so emission order relative to state resets is provable. -/

/-- One entry of the scroll batcher's `pendingDeltas` map. -/
structure PendingDelta where
  deltaX : ℚ
  deltaY : ℚ
  container : Node
  isDocument : Bool
deriving DecidableEq

/-- The fields of a `DragModel` the session handlers read: id, current
context value, and the tracked rect. -/
structure DragModelState where
  id : String
  ctx : ℕ
  rect : RectWithId
deriving DecidableEq

/-- The fields of a `DropModel` the session handlers read.  `token`
models JavaScript object identity (each created model is distinct);
`nodeValid` abstracts `dropNode && registry.isValidDropNode(dropNode,
id)` — the node is set and still attached with a matching
registration. -/
structure DropModelState where
  token : ℕ
  id : String
  ctx : ℕ
  nodeValid : Bool
  disabled : Bool
  rect : RectWithId
deriving DecidableEq

/-- What the `dropping` cell retains of a drop model: identity, id and
context (the session never reads a rect through `dropping`). -/
structure DropRef where
  token : ℕ
  id : String
  ctx : ℕ
deriving DecidableEq

/-- The reference stored by `dropping.set(model)`. -/
def DropModelState.ref (dp : DropModelState) : DropRef :=
  { token := dp.token, id := dp.id, ctx := dp.ctx }

/-- The overlay triple `{node, position, rect}`; `node` records whether
an overlay element is mounted. -/
structure OverlayState where
  node : Bool
  position : Position
  rect : RectWithId
deriving DecidableEq

/-- The session state of one `reatomDnd` instance. -/
structure EngineState where
  dragging : Option DragModelState
  dropping : Option DropRef
  dropCache : List DropModelState
  pointer : Position
  overlay : OverlayState
  pending : List PendingDelta
deriving DecidableEq

/-- Observable actions of the session handlers: listener emissions
(`emit…` to the model's own listeners, `cb…` to the engine-level
callback) and the state-cell writes that reset `dragging`/`dropping`. -/
inductive Ev where
  | emitDragEnd (id : String) (ctx : ℕ)
  | cbDragEnd (ctx : ℕ)
  | emitDrop (id : String) (dragCtx dropCtx : ℕ)
  | cbDrop (dragCtx dropCtx : ℕ)
  | emitDragCancel (id : String) (ctx : ℕ)
  | cbDragCancel (ctx : ℕ)
  | emitDropLeave (id : String) (ctx : ℕ)
  | cbDropLeave (dragCtx dropCtx : ℕ)
  | emitDropEnter (id : String) (ctx : ℕ)
  | cbDropEnter (dragCtx dropCtx : ℕ)
  | setDragging (value : Option String)
  | setDropping (value : Option String)
deriving DecidableEq

/-- Listener or engine-callback emission (as opposed to a state write). -/
def Ev.isEmission : Ev → Bool
  | Ev.setDragging _ => false
  | Ev.setDropping _ => false
  | _ => true

/-- A write that resets a session state cell. -/
def Ev.isReset : Ev → Bool
  | Ev.setDragging _ => true
  | Ev.setDropping _ => true
  | _ => false

/-- An `onDrop` emission (model listeners or engine callback). -/
def Ev.isDropEv : Ev → Bool
  | Ev.emitDrop _ _ _ => true
  | Ev.cbDrop _ _ => true
  | _ => false

/-- An `onDropLeave` emission (model listeners or engine callback). -/
def Ev.isDropLeaveEv : Ev → Bool
  | Ev.emitDropLeave _ _ => true
  | Ev.cbDropLeave _ _ => true
  | _ => false

/-- An `onDropEnter` emission (model listeners or engine callback). -/
def Ev.isDropEnterEv : Ev → Bool
  | Ev.emitDropEnter _ _ => true
  | Ev.cbDropEnter _ _ => true
  | _ => false

/-- The scroll-parent inverted index `container → set of affected ids`
(`makeScrollParentCache`), read-only during a drag. -/
abbrev ScrollCache := Node → Option (List String)

/-- `affectedIds?.has(id)` — a lookup miss counts as `false`. -/
def hasId (ids : Option (List String)) (id : String) : Bool :=
  match ids with
  | some l => l.contains id
  | none => false

/-- One iteration of the loop in `applyScrollDeltas`: translate the
dragging model's rect when the container affects it (or the scroll is on
the document), and likewise every enabled, attached drop model. -/
def applyOneDelta (cache : ScrollCache) (s : EngineState) (d : PendingDelta) : EngineState :=
  let affectedIds := cache d.container
  { s with
    dragging := s.dragging.map (fun dragModel =>
      if d.isDocument || hasId affectedIds dragModel.id then
        { dragModel with rect := dragModel.rect.updateWithOffset d.deltaX d.deltaY }
      else dragModel)
    dropCache := s.dropCache.map (fun dropModel =>
      if dropModel.nodeValid && !dropModel.disabled &&
          (d.isDocument || hasId affectedIds dropModel.id) then
        { dropModel with rect := dropModel.rect.updateWithOffset d.deltaX d.deltaY }
      else dropModel) }

/-- `applyScrollDeltas(deltas)` from modifiers.ts. -/
def applyScrollDeltas (cache : ScrollCache) (deltas : List PendingDelta)
    (s : EngineState) : EngineState :=
  deltas.foldl (applyOneDelta cache) s

/-- `scrollBatcher.flush()`: a no-op on an empty batch, otherwise take
the pending deltas, clear the batch, and apply them. -/
def flushBatcher (cache : ScrollCache) (s : EngineState) : EngineState :=
  if s.pending.isEmpty then s
  else applyScrollDeltas cache s.pending { s with pending := [] }

/-- `scrollBatcher.clear()`: drop the pending deltas without applying. -/
def clearBatcher (s : EngineState) : EngineState :=
  { s with pending := [] }

/-- The `sensor.onDragEnd` handler from `reatomDnd`: flush the scroll
batch, then — with the drag and drop models captured once — emit
drag-end to the model's listeners and the engine callback and clear
`dragging`; then, when both captured models exist, emit drop to the drop
model's listeners and the engine callback and clear `dropping`. -/
def handleDragEnd (cache : ScrollCache) (s : EngineState) : EngineState × List Ev :=
  let s1 := flushBatcher cache s
  match s1.dragging, s1.dropping with
  | none, _ => (s1, [])
  | some dragModel, none =>
      ({ s1 with dragging := none },
        [Ev.emitDragEnd dragModel.id dragModel.ctx,
          Ev.cbDragEnd dragModel.ctx,
          Ev.setDragging none])
  | some dragModel, some dropModel =>
      ({ s1 with dragging := none, dropping := none },
        [Ev.emitDragEnd dragModel.id dragModel.ctx,
          Ev.cbDragEnd dragModel.ctx,
          Ev.setDragging none,
          Ev.emitDrop dropModel.id dragModel.ctx dropModel.ctx,
          Ev.cbDrop dragModel.ctx dropModel.ctx,
          Ev.setDropping none])

/-- The `sensor.onCancel` handler from `reatomDnd`: discard the scroll
batch; when a drag is active emit drag-cancel (model listeners then
engine callback) and clear `dragging`; always write `dropping` to
empty. -/
def handleCancel (s : EngineState) : EngineState × List Ev :=
  let s1 := clearBatcher s
  match s1.dragging with
  | some dragModel =>
      ({ s1 with dragging := none, dropping := none },
        [Ev.emitDragCancel dragModel.id dragModel.ctx,
          Ev.cbDragCancel dragModel.ctx,
          Ev.setDragging none,
          Ev.setDropping none])
  | none => ({ s1 with dropping := none }, [Ev.setDropping none])

/-- The modifier-pipeline input assembled by `updatePosition` in
`reatomDnd`. -/
structure ModifierInput where
  position : Position
  overlayRect : RectWithId
  draggingRect : Option RectWithId
  droppingRect : Option RectWithId

/-- The drop-transition tail of the per-frame effect: emit leave for the
previously active model when it differs from the next one (leave fires
for both a replacement and a loss of target), then either store the next
model and emit enter, or clear `dropping`.  Model comparison is by
object identity (`token`). -/
def emitTransition (dragCtx : ℕ) (dropModel : Option DropRef)
    (nextDropModel : Option DropModelState) (s : EngineState) : EngineState × List Ev :=
  let leaveEvs :=
    match dropModel, nextDropModel with
    | some dp, some nd =>
        if dp.token != nd.token then
          [Ev.emitDropLeave dp.id dp.ctx, Ev.cbDropLeave dragCtx dp.ctx]
        else []
    | some dp, none => [Ev.emitDropLeave dp.id dp.ctx, Ev.cbDropLeave dragCtx dp.ctx]
    | none, _ => []
  match nextDropModel with
  | some nd =>
      if (match dropModel with
          | some dp => nd.token != dp.token
          | none => true) then
        ({ s with dropping := some nd.ref },
          leaveEvs ++
            [Ev.setDropping (some nd.id),
              Ev.emitDropEnter nd.id nd.ctx,
              Ev.cbDropEnter dragCtx nd.ctx])
      else (s, leaveEvs)
  | none => ({ s with dropping := none }, leaveEvs ++ [Ev.setDropping none])

/-- The per-frame collision effect (`mainEffect` in `reatomDnd`): while a
drag is active, collect the rects of enabled, attached drop models, run
the strategy, resolve the top collision back to a drop model through the
cache, recompute the overlay position through the modifier pipeline,
snap the overlay rect when an overlay node is mounted, and run the
leave/enter transition. -/
def mainEffect (strategy : StrategyInput → List Collision)
    (modifier : ModifierInput → Position) (s : EngineState) : EngineState × List Ev :=
  match s.dragging with
  | none => (s, [])
  | some dragModel =>
      let activeDropRects :=
        (s.dropCache.filter (fun dp => dp.nodeValid && !dp.disabled)).map
          (fun dp => dp.rect)
      let collisions := strategy
        { pointer := s.pointer
          draggingRect := dragModel.rect
          overlayRect := s.overlay.rect
          droppingRects := activeDropRects }
      let mainCollision := collisions.head?
      let nextDropModel := mainCollision.bind
        (fun c => s.dropCache.find? (fun dp => dp.id == c.droppingRect.id))
      let modifiedPosition := modifier
        { position := s.pointer
          overlayRect := s.overlay.rect
          draggingRect := some dragModel.rect
          droppingRect := mainCollision.map (fun c => c.droppingRect) }
      let s1 := { s with overlay := { s.overlay with position := modifiedPosition } }
      let s2 :=
        if s1.overlay.node then
          { s1 with overlay :=
              { s1.overlay with rect := s1.overlay.rect.updatePosition s1.overlay.position } }
        else s1
      emitTransition dragModel.ctx s2.dropping nextDropModel s2

/-- The ordering property asserted by the spec for drag-end: every
listener/callback emission in the trace comes before every state-cell
reset. -/
def emissionsPrecedeResets (tr : List Ev) : Prop :=
  ∀ i, i < tr.length → ∀ j, j < tr.length →
    (tr.getD i (Ev.cbDragEnd 0)).isEmission = true →
    (tr.getD j (Ev.cbDragEnd 0)).isReset = true → i < j

/-! ### Concrete sample data, used to evaluate the definitions -/

/-- A consistent rect literal, as `createRect` builds one in the
strategy tests. -/
def rectSample (id : String) (x y w h : ℚ) : RectWithId :=
  { id := id, x := x, y := y, width := w, height := h,
    left := x, right := x + w, top := y, bottom := y + h }

def overlaySample : OverlayState :=
  { node := false, position := { x := 0, y := 0 },
    rect := rectSample "overlay" 0 0 100 100 }

def dragSample : DragModelState :=
  { id := "card-1", ctx := 10, rect := rectSample "card-1" 0 0 50 50 }

def dropSample : DropModelState :=
  { token := 2, id := "done", ctx := 20, nodeValid := true, disabled := false,
    rect := rectSample "done" 0 0 100 100 }

def dropOther : DropModelState :=
  { token := 3, id := "todo", ctx := 30, nodeValid := true, disabled := false,
    rect := rectSample "todo" 200 0 100 100 }

def engineSample : EngineState :=
  { dragging := some dragSample
    dropping := some dropSample.ref
    dropCache := [dropSample, dropOther]
    pointer := { x := 0, y := 0 }
    overlay := overlaySample
    pending := [] }

def engineTargetingOther : EngineState :=
  { engineSample with dropping := some dropOther.ref }

def engineWithPending : EngineState :=
  { engineSample with
    pending := [{ deltaX := 3, deltaY := 4, container := 1, isDocument := false }] }

def engineIdle : EngineState :=
  { engineSample with dragging := none, dropping := none }

def cacheSample : ScrollCache :=
  fun c => if c = 1 then some ["done"] else none

def deltaSample : PendingDelta :=
  { deltaX := 3, deltaY := 4, container := 1, isDocument := false }

def strategySample : StrategyInput → List Collision :=
  fun _ => [{ value := 1, droppingRect := rectSample "done" 0 0 100 100 }]

def modifierSample : ModifierInput → Position :=
  fun input => input.position

def regSample : RegistryState :=
  { dragMap := fun m => if m = 0 then some "a" else none
    dropMap := fun m => if m = 1 then some "z" else none
    dragAttr := fun m => if m = 0 then some "a" else none
    dropAttr := fun m => if m = 1 then some "z" else none }

def strategyInputZero : StrategyInput :=
  { pointer := { x := 50, y := 50 }
    draggingRect := rectSample "drag" 0 0 100 100
    overlayRect := rectSample "overlay" 0 0 0 0
    droppingRects := [rectSample "drop" 0 0 100 100] }

def strategyInputA : StrategyInput :=
  { pointer := { x := 50, y := 50 }
    draggingRect := rectSample "drag" 0 0 100 100
    overlayRect := rectSample "overlay" 0 0 100 100
    droppingRects := [rectSample "drop1" 0 0 50 100, rectSample "drop2" 0 0 100 100] }

/-! ## Theorems -/

/-- A stable sort leaves every class of mutually-tied elements (any set
on which the comparator holds both ways) in input order: filtering the
sorted list by such a class gives the same list as filtering the input. -/
theorem mergeSort_filter_stable {α : Type} (le : α → α → Bool)
    (htrans : ∀ a b c, le a b → le b c → le a c)
    (htotal : ∀ a b, le a b || le b a)
    (p : α → Bool) (hp : ∀ a b, p a → p b → le a b) (l : List α) :
    (l.mergeSort le).filter p = l.filter p := by
  have hmem : ∀ a ∈ l.filter p, p a = true := fun a h => List.of_mem_filter h
  have hpair : (l.filter p).Pairwise (fun a b => le a b = true) :=
    List.pairwise_of_forall_mem_list (fun a ha b hb => hp a b (hmem a ha) (hmem b hb))
  have h1 : List.Sublist (l.filter p) (l.mergeSort le) :=
    List.sublist_mergeSort htrans htotal hpair (List.filter_sublist l)
  have h3 : List.Sublist (l.filter p) ((l.mergeSort le).filter p) := by
    have h2 := h1.filter p
    rwa [List.filter_eq_self.mpr hmem] at h2
  have hlen : ((l.mergeSort le).filter p).length = (l.filter p).length :=
    ((List.mergeSort_perm l le).filter p).length_eq
  exact (h3.eq_of_length hlen.symm).symm

/-- Sorting, permutation and stability facts for one scored collision
list sorted ascending by value, shared by the distance strategies. -/
theorem sortRCollisions_spec (scored : List RCollision) :
    ((scored.mergeSort (fun a b => decide (a.value ≤ b.value))).map
        (fun c => c.droppingRect)).Perm (scored.map (fun c => c.droppingRect)) ∧
      (scored.mergeSort (fun a b => decide (a.value ≤ b.value))).Pairwise
        (fun a b => a.value ≤ b.value) ∧
      ∀ v : ℝ, (scored.mergeSort (fun a b => decide (a.value ≤ b.value))).filter
          (fun c => decide (c.value = v)) =
        scored.filter (fun c => decide (c.value = v)) := by
  have htrans : ∀ a b c : RCollision,
      decide (a.value ≤ b.value) → decide (b.value ≤ c.value) → decide (a.value ≤ c.value) := by
    intro a b c hab hbc
    simp only [decide_eq_true_eq] at *
    exact le_trans hab hbc
  have htotal : ∀ a b : RCollision,
      decide (a.value ≤ b.value) || decide (b.value ≤ a.value) := by
    intro a b
    rcases le_total a.value b.value with h | h <;> simp [h]
  refine ⟨?_, ?_, ?_⟩
  · exact (List.mergeSort_perm scored _).map (fun c => c.droppingRect)
  · exact (List.sorted_mergeSort htrans htotal scored).imp (fun h => by
      simpa using h)
  · intro v
    refine mergeSort_filter_stable _ htrans htotal _ ?_ scored
    intro a b ha hb
    simp only [decide_eq_true_eq] at *
    rw [ha, hb]

/-- Claim C2: `rectangleIntersection` returns `[]` when the overlay's
area is 0; otherwise it returns exactly those candidates whose computed
overlap area with the overlay is strictly positive (zero-overlap
candidates are excluded entirely), each scored
`intersectionArea / overlayArea`, sorted descending by score. -/
theorem rectangleIntersection_spec (input : StrategyInput) :
    (overlayArea input.overlayRect = 0 → rectangleIntersection input = []) ∧
      (overlayArea input.overlayRect ≠ 0 →
        ((rectangleIntersection input).map (fun c => c.droppingRect)).Perm
            (input.droppingRects.filter
              (fun droppingRect =>
                decide (0 < intersectionArea input.overlayRect droppingRect))) ∧
          (∀ c ∈ rectangleIntersection input,
            c.value = intersectionArea input.overlayRect c.droppingRect /
                overlayArea input.overlayRect ∧
              0 < intersectionArea input.overlayRect c.droppingRect) ∧
          (rectangleIntersection input).Pairwise (fun a b => b.value ≤ a.value)) := by
  constructor
  · intro h
    simp [rectangleIntersection, h]
  · intro h
    have hdef : rectangleIntersection input =
        ((input.droppingRects.filter
            (fun droppingRect =>
              decide (0 < intersectionArea input.overlayRect droppingRect))).map
          (fun droppingRect =>
            ({ value := intersectionArea input.overlayRect droppingRect /
                  overlayArea input.overlayRect
               droppingRect := droppingRect } : Collision))).mergeSort
          (fun a b => decide (b.value ≤ a.value)) := by
      simp [rectangleIntersection, h]
    have htrans : ∀ a b c : Collision,
        decide (b.value ≤ a.value) → decide (c.value ≤ b.value) →
          decide (c.value ≤ a.value) := by
      intro a b c hab hbc
      simp only [decide_eq_true_eq] at *
      exact le_trans hbc hab
    have htotal : ∀ a b : Collision,
        decide (b.value ≤ a.value) || decide (a.value ≤ b.value) := by
      intro a b
      rcases le_total a.value b.value with hle | hle <;> simp [hle]
    refine ⟨?_, ?_, ?_⟩
    · rw [hdef]
      have hperm := (List.mergeSort_perm
          ((input.droppingRects.filter
            (fun droppingRect =>
              decide (0 < intersectionArea input.overlayRect droppingRect))).map
            (fun droppingRect =>
              ({ value := intersectionArea input.overlayRect droppingRect /
                    overlayArea input.overlayRect
                 droppingRect := droppingRect } : Collision)))
          (fun a b => decide (b.value ≤ a.value))).map (fun c : Collision => c.droppingRect)
      refine hperm.trans ?_
      rw [List.map_map]
      exact List.Perm.of_eq (List.map_id' ..)
    · intro c hc
      rw [hdef, List.mem_mergeSort] at hc
      obtain ⟨d, hd, rfl⟩ := List.mem_map.mp hc
      exact ⟨rfl, by simpa using List.of_mem_filter hd⟩
    · rw [hdef]
      exact (List.sorted_mergeSort htrans htotal _).imp (fun h => by simpa using h)

/-- Witness for C2: a zero-area overlay yields `[]`; scenario A's
overlay and candidates give a permutation of the positive-overlap
candidates sorted descending. -/
theorem rectangleIntersection_spec_witness :
    rectangleIntersection strategyInputZero = [] ∧
      ((rectangleIntersection strategyInputA).map (fun c => c.droppingRect)).Perm
        (strategyInputA.droppingRects.filter
          (fun droppingRect =>
            decide (0 < intersectionArea strategyInputA.overlayRect droppingRect))) ∧
      (rectangleIntersection strategyInputA).Pairwise (fun a b => b.value ≤ a.value) :=
  ⟨(rectangleIntersection_spec strategyInputZero).1
      (by simp [strategyInputZero, overlayArea, rectSample]),
    ((rectangleIntersection_spec strategyInputA).2
      (by simp [strategyInputA, overlayArea, rectSample])).1,
    ((rectangleIntersection_spec strategyInputA).2
      (by simp [strategyInputA, overlayArea, rectSample])).2.2⟩

/-- Claim C3: `closestCenter` and `createClosestCorner` (any
aggregation) return a permutation of the input candidate list — same
length, no additions or omissions — ordered ascending by score, with
ties preserving input order (the sort is stable: filtering the output by
any score class reproduces the scored input order). -/
theorem distance_strategies_spec (input : StrategyInput) :
    (((closestCenter input).map (fun c => c.droppingRect)).Perm input.droppingRects ∧
      (closestCenter input).Pairwise (fun a b => a.value ≤ b.value) ∧
      (∀ v : ℝ, (closestCenter input).filter (fun c => decide (c.value = v)) =
        (input.droppingRects.map (fun droppingRect =>
          ({ value := centerDistance input.pointer droppingRect
             droppingRect := droppingRect } : RCollision))).filter
          (fun c => decide (c.value = v)))) ∧
    ∀ aggregation : CornerAggregation,
      ((createClosestCorner aggregation input).map (fun c => c.droppingRect)).Perm
          input.droppingRects ∧
        (createClosestCorner aggregation input).Pairwise (fun a b => a.value ≤ b.value) ∧
        (∀ v : ℝ, (createClosestCorner aggregation input).filter
            (fun c => decide (c.value = v)) =
          (input.droppingRects.map (fun droppingRect =>
            ({ value := cornerValue aggregation input.overlayRect droppingRect
               droppingRect := droppingRect } : RCollision))).filter
            (fun c => decide (c.value = v))) := by
  constructor
  · have hc := sortRCollisions_spec (input.droppingRects.map (fun droppingRect =>
      ({ value := centerDistance input.pointer droppingRect
         droppingRect := droppingRect } : RCollision)))
    refine ⟨?_, hc.2.1, hc.2.2⟩
    have hmapeq : (input.droppingRects.map (fun droppingRect =>
        ({ value := centerDistance input.pointer droppingRect
           droppingRect := droppingRect } : RCollision))).map (fun c => c.droppingRect) =
        input.droppingRects := by
      rw [List.map_map]; exact List.map_id' ..
    exact hmapeq ▸ hc.1
  · intro aggregation
    have hc := sortRCollisions_spec (input.droppingRects.map (fun droppingRect =>
      ({ value := cornerValue aggregation input.overlayRect droppingRect
         droppingRect := droppingRect } : RCollision)))
    refine ⟨?_, hc.2.1, hc.2.2⟩
    have hmapeq : (input.droppingRects.map (fun droppingRect =>
        ({ value := cornerValue aggregation input.overlayRect droppingRect
           droppingRect := droppingRect } : RCollision))).map (fun c => c.droppingRect) =
        input.droppingRects := by
      rw [List.map_map]; exact List.map_id' ..
    exact hmapeq ▸ hc.1

/-- Helper for C10: no single rect-state method changes the owner id. -/
theorem applyRectOp_preserves_id (r : RectWithId) (op : RectOp) :
    (applyRectOp r op).id = r.id := by
  cases op with
  | update rect =>
      simp only [applyRectOp, RectWithId.update]
      split
      · rfl
      · rfl
  | updateWithOffset deltaX deltaY => rfl
  | updatePosition position => rfl

/-- Claim C5: `updateWithOffset(dx1, dy1)` followed by
`updateWithOffset(dx2, dy2)` yields the same stored rect as one call
`updateWithOffset(dx1 + dx2, dy1 + dy2)` from the same starting state. -/
theorem updateWithOffset_additive (r : RectWithId) (dx1 dy1 dx2 dy2 : ℚ) :
    (r.updateWithOffset dx1 dy1).updateWithOffset dx2 dy2 =
      r.updateWithOffset (dx1 + dx2) (dy1 + dy2) := by
  simp only [RectWithId.updateWithOffset, RectWithId.mk.injEq]
  and_intros <;> (try trivial) <;> ring

/-- Claim C6: a rect value satisfying `right = left + width` and
`bottom = top + height` still satisfies both equations after
`updateWithOffset` with any deltas and after `updatePosition` with any
position, and `update(raw)` preserves the invariant whenever the raw
input rect satisfies it. -/
theorem rect_invariant_preserved (r : RectWithId) (dx dy : ℚ) (pos : Position)
    (raw : RawRect) (h : rectInvariant r) :
    rectInvariant (r.updateWithOffset dx dy) ∧
      rectInvariant (r.updatePosition pos) ∧
      (rawRectInvariant raw → rectInvariant (r.update raw)) := by
  obtain ⟨h1, h2⟩ := h
  refine ⟨⟨?_, ?_⟩, ⟨?_, ?_⟩, ?_⟩
  · simp only [RectWithId.updateWithOffset]; rw [h1]; ring
  · simp only [RectWithId.updateWithOffset]; rw [h2]; ring
  · simp [RectWithId.updatePosition]
  · simp [RectWithId.updatePosition]
  · rintro ⟨hr1, hr2⟩
    simp only [RectWithId.update]
    split
    · exact ⟨h1, h2⟩
    · exact ⟨hr1, hr2⟩

/-- Witness for C6 at a concrete rect, offset, position and raw rect. -/
theorem rect_invariant_preserved_witness :
    rectInvariant ((rectSample "a" 0 0 10 20).updateWithOffset 3 4) ∧
      rectInvariant ((rectSample "a" 0 0 10 20).updatePosition { x := 5, y := 6 }) ∧
      rectInvariant ((rectSample "a" 0 0 10 20).update
        { x := 1, y := 1, width := 2, height := 2, left := 0, right := 2, top := 0, bottom := 2 }) :=
  ⟨(rect_invariant_preserved (rectSample "a" 0 0 10 20) 3 4 { x := 5, y := 6 }
      { x := 1, y := 1, width := 2, height := 2, left := 0, right := 2, top := 0, bottom := 2 }
      (by simp [rectInvariant, rectSample])).1,
    (rect_invariant_preserved (rectSample "a" 0 0 10 20) 3 4 { x := 5, y := 6 }
      { x := 1, y := 1, width := 2, height := 2, left := 0, right := 2, top := 0, bottom := 2 }
      (by simp [rectInvariant, rectSample])).2.1,
    (rect_invariant_preserved (rectSample "a" 0 0 10 20) 3 4 { x := 5, y := 6 }
      { x := 1, y := 1, width := 2, height := 2, left := 0, right := 2, top := 0, bottom := 2 }
      (by simp [rectInvariant, rectSample])).2.2 (by simp [rawRectInvariant])⟩

/-- Claim C9: `unregisterDrag(node, id)` and `unregisterDrop(node, id)`
remove the node-to-id association in their namespace exactly when the
node's current association equals `id`; otherwise the registry (both
namespaces and attributes) is left entirely unchanged.  Both operations
are total functions: no error is raised on a miss. -/
theorem unregister_guarded (s : RegistryState) (n : Node) (id : String) :
    (∀ m, (unregisterDrag n id s).dragMap m =
        if m = n ∧ s.dragMap n = some id then none else s.dragMap m) ∧
      ((unregisterDrag n id s).dropMap = s.dropMap) ∧
      (s.dragMap n ≠ some id → unregisterDrag n id s = s) ∧
      (∀ m, (unregisterDrop n id s).dropMap m =
        if m = n ∧ s.dropMap n = some id then none else s.dropMap m) ∧
      ((unregisterDrop n id s).dragMap = s.dragMap) ∧
      (s.dropMap n ≠ some id → unregisterDrop n id s = s) := by
  refine ⟨?_, ?_, ?_, ?_, ?_, ?_⟩
  · intro m
    simp only [unregisterDrag]
    split
    · next hmatch =>
        simp only [Function.update_apply]
        by_cases hm : m = n <;> simp [hm, hmatch]
    · next hmatch => simp [hmatch]
  · simp only [unregisterDrag]
    split <;> rfl
  · intro hne
    simp only [unregisterDrag]
    split
    · next hmatch => exact absurd hmatch hne
    · rfl
  · intro m
    simp only [unregisterDrop]
    split
    · next hmatch =>
        simp only [Function.update_apply]
        by_cases hm : m = n <;> simp [hm, hmatch]
    · next hmatch => simp [hmatch]
  · simp only [unregisterDrop]
    split <;> rfl
  · intro hne
    simp only [unregisterDrop]
    split
    · next hmatch => exact absurd hmatch hne
    · rfl

/-- Witness for C9: a mismatching id leaves the registry untouched, a
matching id removes the association. -/
theorem unregister_guarded_witness :
    unregisterDrag 0 "b" regSample = regSample ∧
      (unregisterDrag 0 "a" regSample).dragMap 0 = none :=
  ⟨(unregister_guarded regSample 0 "b").2.2.1 (by decide),
    by have h := (unregister_guarded regSample 0 "a").1 0; simpa [regSample] using h⟩

/-- Claim C10: the stored rect's id always equals the id supplied at
creation, after any sequence of `update`, `updateWithOffset` and
`updatePosition` calls with arbitrary arguments. -/
theorem rect_id_immutable (id : String) (raw : RawRect) (ops : List RectOp) :
    (applyRectOps (makeRect id raw) ops).id = id := by
  suffices h : ∀ (r : RectWithId) (ops : List RectOp), (applyRectOps r ops).id = r.id by
    rw [h]; rfl
  intro r ops
  induction ops generalizing r with
  | nil => rfl
  | cons op ops ih =>
      show (applyRectOps (applyRectOp r op) ops).id = r.id
      rw [ih, applyRectOp_preserves_id]

/-- Applying one scroll delta never touches the `dropping` cell. -/
theorem applyOneDelta_dropping (cache : ScrollCache) (s : EngineState) (d : PendingDelta) :
    (applyOneDelta cache s d).dropping = s.dropping := rfl

/-- Applying one scroll delta never touches the pending batch. -/
theorem applyOneDelta_pending (cache : ScrollCache) (s : EngineState) (d : PendingDelta) :
    (applyOneDelta cache s d).pending = s.pending := rfl

/-- Applying one scroll delta only moves the dragging model's rect: its
id and context are preserved, as is its presence. -/
theorem applyOneDelta_dragging_key (cache : ScrollCache) (s : EngineState) (d : PendingDelta) :
    (applyOneDelta cache s d).dragging.map (fun m => (m.id, m.ctx)) =
      s.dragging.map (fun m => (m.id, m.ctx)) := by
  cases h : s.dragging with
  | none => simp [applyOneDelta, h]
  | some dm =>
      simp only [applyOneDelta, h, Option.map_some']
      split <;> rfl

/-- `applyScrollDeltas` never touches the `dropping` cell. -/
theorem applyScrollDeltas_dropping (cache : ScrollCache) (deltas : List PendingDelta)
    (s : EngineState) : (applyScrollDeltas cache deltas s).dropping = s.dropping := by
  induction deltas generalizing s with
  | nil => rfl
  | cons d deltas ih =>
      show (applyScrollDeltas cache deltas (applyOneDelta cache s d)).dropping = s.dropping
      rw [ih, applyOneDelta_dropping]

/-- `applyScrollDeltas` never touches the pending batch. -/
theorem applyScrollDeltas_pending (cache : ScrollCache) (deltas : List PendingDelta)
    (s : EngineState) : (applyScrollDeltas cache deltas s).pending = s.pending := by
  induction deltas generalizing s with
  | nil => rfl
  | cons d deltas ih =>
      show (applyScrollDeltas cache deltas (applyOneDelta cache s d)).pending = s.pending
      rw [ih, applyOneDelta_pending]

/-- `applyScrollDeltas` preserves the dragging model's presence, id and
context. -/
theorem applyScrollDeltas_dragging_key (cache : ScrollCache) (deltas : List PendingDelta)
    (s : EngineState) :
    (applyScrollDeltas cache deltas s).dragging.map (fun m => (m.id, m.ctx)) =
      s.dragging.map (fun m => (m.id, m.ctx)) := by
  induction deltas generalizing s with
  | nil => rfl
  | cons d deltas ih =>
      show (applyScrollDeltas cache deltas (applyOneDelta cache s d)).dragging.map
          (fun m => (m.id, m.ctx)) = s.dragging.map (fun m => (m.id, m.ctx))
      rw [ih, applyOneDelta_dragging_key]

/-- Flushing the batch never touches the `dropping` cell. -/
theorem flushBatcher_dropping (cache : ScrollCache) (s : EngineState) :
    (flushBatcher cache s).dropping = s.dropping := by
  simp only [flushBatcher]
  split
  · rfl
  · rw [applyScrollDeltas_dropping]

/-- Flushing the batch preserves the dragging model's presence, id and
context. -/
theorem flushBatcher_dragging_key (cache : ScrollCache) (s : EngineState) :
    (flushBatcher cache s).dragging.map (fun m => (m.id, m.ctx)) =
      s.dragging.map (fun m => (m.id, m.ctx)) := by
  simp only [flushBatcher]
  split
  · rfl
  · rw [applyScrollDeltas_dragging_key]

/-- Counterexample to C1 as stated: at a concrete state with an active
drag and an active drop target, the drag-end trace resets `dragging`
(index 2) before it emits `onDrop` (index 3), so not every emission
precedes every state reset. -/
theorem dragEnd_claim_counterexample :
    ¬ emissionsPrecedeResets (handleDragEnd cacheSample engineSample).2 := by
  unfold emissionsPrecedeResets
  decide

/-- Claim C1 (amended): on DragEnd while a drag is active, the engine
emits `onDragEnd` to the dragged model's listeners then the engine
callback and resets `dragging`; then — if and only if a drop model is
active — it emits `onDrop(dragContext, dropContext)` to the drop
model's listeners then the engine callback and resets `dropping`.  Each
emission precedes the reset of its own cell and the contexts passed are
the ones captured before any reset, but the `onDrop` emissions happen
after the `dragging` cell has already been cleared. -/
theorem handleDragEnd_emission_order (cache : ScrollCache) (s : EngineState)
    (dm : DragModelState) (h : s.dragging = some dm) :
    (handleDragEnd cache s).2 =
        [Ev.emitDragEnd dm.id dm.ctx, Ev.cbDragEnd dm.ctx, Ev.setDragging none] ++
          (match s.dropping with
            | some dp =>
                [Ev.emitDrop dp.id dm.ctx dp.ctx, Ev.cbDrop dm.ctx dp.ctx,
                  Ev.setDropping none]
            | none => []) ∧
      (handleDragEnd cache s).1.dragging = none ∧
      (handleDragEnd cache s).1.dropping = none := by
  have hkey : (flushBatcher cache s).dragging.map (fun m => (m.id, m.ctx)) =
      some (dm.id, dm.ctx) := by
    rw [flushBatcher_dragging_key, h]; rfl
  obtain ⟨dm1, hdm1, hk⟩ := Option.map_eq_some'.mp hkey
  obtain ⟨hid, hctx⟩ := Prod.mk.injEq .. ▸ hk
  have hdrop := flushBatcher_dropping cache s
  cases hdp : s.dropping with
  | none =>
      rw [hdp] at hdrop
      simp [handleDragEnd, hdm1, hdrop, hid, hctx]
  | some dp =>
      rw [hdp] at hdrop
      simp [handleDragEnd, hdm1, hdrop, hid, hctx]

/-- Witness for the amended C1 at a concrete drag-and-drop state. -/
theorem handleDragEnd_emission_order_witness :
    (handleDragEnd cacheSample engineSample).2 =
        [Ev.emitDragEnd "card-1" 10, Ev.cbDragEnd 10, Ev.setDragging none,
          Ev.emitDrop "done" 10 20, Ev.cbDrop 10 20, Ev.setDropping none] ∧
      (handleDragEnd cacheSample engineSample).1.dragging = none ∧
      (handleDragEnd cacheSample engineSample).1.dropping = none := by
  have h := handleDragEnd_emission_order cacheSample engineSample dragSample rfl
  simpa [engineSample, dragSample, dropSample, DropModelState.ref] using h

/-- Claim C7: Cancel discards any pending scroll batch without applying
it (all drop rects keep their values and the batch empties); while a
drag is active it emits `onDragCancel` (model listeners then engine
callback) and never any `onDrop`/`onDropLeave`, and resets `dragging`
and `dropping` to empty; cancelling from Idle emits nothing and only
clears the already-empty cells, so it is a no-op. -/
theorem handleCancel_spec (s : EngineState) :
    ((handleCancel s).1.pending = [] ∧ (handleCancel s).1.dropCache = s.dropCache) ∧
      (∀ e ∈ (handleCancel s).2, e.isDropEv = false ∧ e.isDropLeaveEv = false) ∧
      (∀ dm, s.dragging = some dm →
        (handleCancel s).2 =
            [Ev.emitDragCancel dm.id dm.ctx, Ev.cbDragCancel dm.ctx,
              Ev.setDragging none, Ev.setDropping none] ∧
          (handleCancel s).1.dragging = none ∧ (handleCancel s).1.dropping = none) ∧
      (s.dragging = none →
        (∀ e ∈ (handleCancel s).2, e.isEmission = false) ∧
          (handleCancel s).1 = { s with pending := [], dropping := none }) := by
  cases h : s.dragging with
  | none =>
      refine ⟨⟨?_, ?_⟩, ?_, ?_, ?_⟩
      · simp [handleCancel, clearBatcher, h]
      · simp [handleCancel, clearBatcher, h]
      · simp [handleCancel, clearBatcher, h, Ev.isDropEv, Ev.isDropLeaveEv]
      · intro dm hdm
        exact absurd hdm (by simp)
      · intro _
        constructor
        · simp [handleCancel, clearBatcher, h, Ev.isEmission]
        · simp [handleCancel, clearBatcher, h]
  | some dm =>
      refine ⟨⟨?_, ?_⟩, ?_, ?_, ?_⟩
      · simp [handleCancel, clearBatcher, h]
      · simp [handleCancel, clearBatcher, h]
      · simp [handleCancel, clearBatcher, h, Ev.isDropEv, Ev.isDropLeaveEv]
      · intro dm1 hdm1
        obtain rfl : dm = dm1 := Option.some.inj hdm1
        refine ⟨?_, ?_, ?_⟩ <;> simp [handleCancel, clearBatcher, h]
      · intro hnone
        exact absurd hnone (by simp)

/-- Witness for C7: cancelling a concrete active drag with a pending
scroll batch, and cancelling from a concrete Idle state. -/
theorem handleCancel_spec_witness :
    (handleCancel engineWithPending).2 =
        [Ev.emitDragCancel "card-1" 10, Ev.cbDragCancel 10,
          Ev.setDragging none, Ev.setDropping none] ∧
      (handleCancel engineWithPending).1.pending = [] ∧
      (handleCancel engineIdle).1 = { engineIdle with pending := [], dropping := none } :=
  ⟨((handleCancel_spec engineWithPending).2.2.1 dragSample rfl).1,
    (handleCancel_spec engineWithPending).1.1,
    ((handleCancel_spec engineIdle).2.2.2 rfl).2⟩

/-- Claim C4: applying a batched scroll delta for a non-document
container whose id set does not include the dragging model leaves the
dragging model (hence its rect) unchanged and never touches `dropping`;
every drop model whose id is not indexed under that container keeps its
value, while drop model "done" — enabled, attached and indexed under
the container — has exactly its rect translated by `updateWithOffset`
with the batched delta. -/
theorem applyScrollDeltas_container_scoped (cache : ScrollCache) (d : PendingDelta)
    (s : EngineState) (dm : DragModelState)
    (hdoc : d.isDocument = false) (hdrag : s.dragging = some dm)
    (hnot : hasId (cache d.container) dm.id = false) :
    (applyScrollDeltas cache [d] s).dragging = some dm ∧
      (applyScrollDeltas cache [d] s).dropping = s.dropping ∧
      (∀ (i : ℕ) (dp : DropModelState), s.dropCache[i]? = some dp →
        hasId (cache d.container) dp.id = false →
        (applyScrollDeltas cache [d] s).dropCache[i]? = some dp) ∧
      (∀ (i : ℕ) (dp : DropModelState), s.dropCache[i]? = some dp → dp.id = "done" →
        dp.nodeValid = true → dp.disabled = false →
        hasId (cache d.container) dp.id = true →
        (applyScrollDeltas cache [d] s).dropCache[i]? =
          some { dp with rect := dp.rect.updateWithOffset d.deltaX d.deltaY }) := by
  have hone : applyScrollDeltas cache [d] s = applyOneDelta cache s d := rfl
  refine ⟨?_, ?_, ?_, ?_⟩
  · rw [hone]
    simp [applyOneDelta, hdrag, hdoc, hnot]
  · rw [hone, applyOneDelta_dropping]
  · intro i dp hi hnotdp
    rw [hone]
    simp only [applyOneDelta, List.getElem?_map, hi, Option.map_some']
    simp [hdoc, hnotdp]
  · intro i dp hi _ hvalid henabled hin
    rw [hone]
    simp only [applyOneDelta, List.getElem?_map, hi, Option.map_some']
    simp [hdoc, hvalid, henabled, hin]

/-- Witness for C4 at scenario D's shape: a scroll delta on container 1,
which indexes only drop model "done"; the dragging model "card-1" and
drop model "todo" are untouched, "done" is translated. -/
theorem applyScrollDeltas_container_scoped_witness :
    (applyScrollDeltas cacheSample [deltaSample] engineSample).dragging = some dragSample ∧
      (applyScrollDeltas cacheSample [deltaSample] engineSample).dropCache[1]? =
        some dropOther ∧
      (applyScrollDeltas cacheSample [deltaSample] engineSample).dropCache[0]? =
        some { dropSample with rect := dropSample.rect.updateWithOffset 3 4 } :=
  ⟨(applyScrollDeltas_container_scoped cacheSample deltaSample engineSample dragSample
      rfl rfl (by decide)).1,
    (applyScrollDeltas_container_scoped cacheSample deltaSample engineSample dragSample
      rfl rfl (by decide)).2.2.1 1 dropOther rfl (by decide),
    (applyScrollDeltas_container_scoped cacheSample deltaSample engineSample dragSample
      rfl rfl (by decide)).2.2.2 0 dropSample rfl rfl rfl rfl (by decide)⟩

/-- Helper for C8: in a trace that is a block without enter events
followed by a block without leave events, every leave emission precedes
every enter emission. -/
theorem leave_enter_split (l₁ l₂ : List Ev)
    (h₁ : ∀ e ∈ l₁, e.isDropEnterEv = false)
    (h₂ : ∀ e ∈ l₂, e.isDropLeaveEv = false) :
    ∀ i j, i < (l₁ ++ l₂).length → j < (l₁ ++ l₂).length →
      ((l₁ ++ l₂).getD i (Ev.setDragging none)).isDropLeaveEv = true →
      ((l₁ ++ l₂).getD j (Ev.setDragging none)).isDropEnterEv = true → i < j := by
  intro i j hi hj hleave henter
  rw [List.getD_eq_getElem?_getD] at hleave henter
  have hi1 : i < l₁.length := by
    by_contra hge
    push_neg at hge
    rw [List.getElem?_append_right hge] at hleave
    rcases hx : l₂[i - l₁.length]? with _ | e
    · rw [hx] at hleave
      simp [Option.getD, Ev.isDropLeaveEv] at hleave
    · rw [hx] at hleave
      have hfalse := h₂ e (List.getElem?_mem hx)
      rw [Option.getD_some, hfalse] at hleave
      exact Bool.false_ne_true hleave
  have hj1 : l₁.length ≤ j := by
    by_contra hlt
    push_neg at hlt
    rw [List.getElem?_append_left hlt] at henter
    rcases hx : l₁[j]? with _ | e
    · rw [hx] at henter
      simp [Option.getD, Ev.isDropEnterEv] at henter
    · rw [hx] at henter
      have hfalse := h₁ e (List.getElem?_mem hx)
      rw [Option.getD_some, hfalse] at henter
      exact Bool.false_ne_true henter
  omega

/-- Helper for C8: the drop-transition tail emits every `onDropLeave`
before any `onDropEnter`, for all inputs. -/
theorem emitTransition_leave_before_enter (dragCtx : ℕ) (dropModel : Option DropRef)
    (nextDropModel : Option DropModelState) (s : EngineState) :
    ∀ i j, i < ((emitTransition dragCtx dropModel nextDropModel s).2).length →
      j < ((emitTransition dragCtx dropModel nextDropModel s).2).length →
      (((emitTransition dragCtx dropModel nextDropModel s).2).getD i
        (Ev.setDragging none)).isDropLeaveEv = true →
      (((emitTransition dragCtx dropModel nextDropModel s).2).getD j
        (Ev.setDragging none)).isDropEnterEv = true → i < j := by
  cases hnd : nextDropModel with
  | none =>
      cases hdp : dropModel with
      | none =>
          simp only [emitTransition]
          exact leave_enter_split [] [Ev.setDropping none] (by simp)
            (by simp [Ev.isDropLeaveEv])
      | some dp =>
          simp only [emitTransition]
          exact leave_enter_split [Ev.emitDropLeave dp.id dp.ctx, Ev.cbDropLeave dragCtx dp.ctx]
            [Ev.setDropping none] (by simp [Ev.isDropEnterEv]) (by simp [Ev.isDropLeaveEv])
  | some nd =>
      cases hdp : dropModel with
      | none =>
          simp only [emitTransition]
          exact leave_enter_split []
            [Ev.setDropping (some nd.id), Ev.emitDropEnter nd.id nd.ctx,
              Ev.cbDropEnter dragCtx nd.ctx] (by simp) (by simp [Ev.isDropLeaveEv])
      | some dp =>
          by_cases htok : dp.token = nd.token
          · simp only [emitTransition, htok]
            simp only [bne_self_eq_false, Bool.false_eq_true, if_false]
            intro i j _ hj _ henter
            exact absurd henter (by
              rcases hx : ([] : List Ev)[j]? with _ | e
              · simp at hj
              · simp at hx)
          · have hne : (dp.token != nd.token) = true := by
              simpa using htok
            have hne2 : (nd.token != dp.token) = true := by
              simp only [bne_iff_ne]
              exact fun hx => htok hx.symm
            simp only [emitTransition, hne, hne2, if_true]
            exact leave_enter_split
              [Ev.emitDropLeave dp.id dp.ctx, Ev.cbDropLeave dragCtx dp.ctx]
              [Ev.setDropping (some nd.id), Ev.emitDropEnter nd.id nd.ctx,
                Ev.cbDropEnter dragCtx nd.ctx]
              (by simp [Ev.isDropEnterEv]) (by simp [Ev.isDropLeaveEv])

/-- Claim C8: within one per-frame collision pass, every `onDropLeave`
emission (for the previously active drop model) precedes every
`onDropEnter` emission (for the newly targeted model): leave always
comes before enter in the same frame. -/
theorem mainEffect_leave_before_enter (strategy : StrategyInput → List Collision)
    (modifier : ModifierInput → Position) (s : EngineState) :
    ∀ i j, i < ((mainEffect strategy modifier s).2).length →
      j < ((mainEffect strategy modifier s).2).length →
      (((mainEffect strategy modifier s).2).getD i
        (Ev.setDragging none)).isDropLeaveEv = true →
      (((mainEffect strategy modifier s).2).getD j
        (Ev.setDragging none)).isDropEnterEv = true → i < j := by
  cases hd : s.dragging with
  | none =>
      intro i j hi _ _ _
      simp [mainEffect, hd] at hi
  | some dragModel =>
      simp only [mainEffect, hd]
      apply emitTransition_leave_before_enter

/-- Witness for C8: at a concrete frame that switches the target from
"todo" to "done", the leave emission (index 0) precedes the enter
emission (index 3). -/
theorem mainEffect_leave_before_enter_witness :
    (((mainEffect strategySample modifierSample engineTargetingOther).2).getD 0
        (Ev.setDragging none)).isDropLeaveEv = true ∧
      (((mainEffect strategySample modifierSample engineTargetingOther).2).getD 3
        (Ev.setDragging none)).isDropEnterEv = true ∧
      (0 : ℕ) < 3 :=
  ⟨by decide, by decide,
    mainEffect_leave_before_enter strategySample modifierSample engineTargetingOther 0 3
      (by decide) (by decide) (by decide) (by decide)⟩

end ReatomDnd
